import Mathlib

/-!
Shallow embedding of `src/templates/services/api_service.py`
(class HubSpotAPIService) from the Hubspot_deals_dlt repository.

Modelling conventions:
- Wall-clock time is `ℚ`.  `time.sleep(d)` is modelled as advancing the
  clock by exactly `d`.
- The mutable instance field `self._request_times : List[float]` is passed
  explicitly; functions that the Python code lets mutate it return the new
  list.
- HTTP traffic is modelled by an explicit list of `HttpEvent`s: the
  responses (or transport failures) the server produces, consumed in order,
  one per `requests.get` call.
- A raw API deal entry is an association list of named fields, where one
  level of nesting (the `properties` sub-map) is representable.
-/

namespace HubSpotAPI

/-- Constant `RATE_LIMIT_MAX = 150` (api_service.py line 35). -/
def RATE_LIMIT_MAX : ℕ := 150

/-- Constant `RATE_LIMIT_WINDOW = 10` seconds (api_service.py line 36). -/
def RATE_LIMIT_WINDOW : ℚ := 10

/-- The pruning step `[t for t in self._request_times if t > cutoff_time]`
with `cutoff_time = now - RATE_LIMIT_WINDOW` (lines 120-121, 131-132 and
293-294 of api_service.py all use this same comprehension). -/
def prune (times : List ℚ) (now : ℚ) : List ℚ :=
  times.filter (fun t => now - RATE_LIMIT_WINDOW < t)

/-- Embeds `HubSpotAPIService._wait_for_rate_limit` (lines 112-135): prune entries
older than the window; if still at or over the quota, wait until the oldest
recorded request leaves the window (`wait = WINDOW - (now - times[0])`,
only if positive) and re-prune after waking; finally append the current
time.  Returns the new timestamp list together with the clock value at
return (the appended timestamp). -/
def wait_for_rate_limit (times : List ℚ) (now : ℚ) : List ℚ × ℚ :=
  let pruned := prune times now
  if RATE_LIMIT_MAX ≤ pruned.length then
    let oldest := pruned.headI
    let wait := RATE_LIMIT_WINDOW - (now - oldest)
    if 0 < wait then
      let now2 := now + wait
      (prune pruned now2 ++ [now2], now2)
    else
      (pruned ++ [now], now)
  else
    (pruned ++ [now], now)

/-- States of `self._request_times` reachable through admissions: the empty
initial list (constructor, line 54), closed under one `_wait_for_rate_limit`
call at an arbitrary clock value. -/
inductive RateReach : List ℚ → Prop
  | init : RateReach []
  | step (ts : List ℚ) (now : ℚ) :
      RateReach ts → RateReach (wait_for_rate_limit ts now).1

/-- One field of a raw deal entry: a string, a boolean, or a nested
string-to-string mapping (the `properties` sub-map). -/
inductive Field where
  | str (s : String)
  | bool (b : Bool)
  | nested (m : List (String × String))
deriving DecidableEq, Repr

/-- A raw API deal entry, as an association list of fields. -/
abbrev Record := List (String × Field)

/-- Shape of `paging.next`: it may lack the `after` key. -/
structure NextInfo where
  after : Option String
deriving DecidableEq, Repr

/-- The `paging` object: may lack the `next` key. -/
structure Paging where
  next : Option NextInfo
deriving DecidableEq, Repr

/-- A parsed successful response body: `results` plus optional `paging`. -/
structure PageData where
  results : List Record
  paging : Option Paging
deriving DecidableEq, Repr

/-- An HTTP response: status code, optional integer `Retry-After` header,
and (for successful statuses) the parsed JSON body. -/
structure HttpResponse where
  status : ℕ
  retryAfter : Option ℕ
  body : PageData
deriving DecidableEq, Repr

/-- One outcome of a `requests.get` call: a response arrived, the request
timed out, or another transport-level failure occurred. -/
inductive HttpEvent where
  | response (r : HttpResponse)
  | timeout
  | transportError
deriving DecidableEq, Repr

/-- The error taxonomy raised by `get_deals`: `HubSpotRateLimitError`
(carrying the parsed retry delay), `HubSpotAuthenticationError`, and the
generic `HubSpotAPIError`. -/
inductive GetDealsError where
  | rateLimit (retryAfter : ℕ)
  | authentication (msg : String)
  | api (msg : String)
deriving DecidableEq, Repr

/-- The response classification of `HubSpotAPIService.get_deals`
(lines 187-220): status 429 raises the rate-limit error with
`int(headers.get('Retry-After', 10))`; status 401 raises the
authentication error; any other status in [400, 600) makes
`raise_for_status` raise, which the `RequestException` handler converts to
the generic API error; `Timeout`/`RequestException` likewise become the
generic API error; otherwise the parsed body is returned. -/
def getDealsResponse (ev : HttpEvent) : Except GetDealsError PageData :=
  match ev with
  | .timeout => .error (.api "Request timeout")
  | .transportError => .error (.api "API request failed")
  | .response r =>
    if r.status = 429 then .error (.rateLimit (r.retryAfter.getD 10))
    else if r.status = 401 then
      .error (.authentication "Invalid or expired API key")
    else if 400 ≤ r.status ∧ r.status < 600 then .error (.api "HTTP error")
    else .ok r.body

/-- The default property list of `get_deals` (lines 169-176). -/
def DEFAULT_PROPERTIES : List String :=
  ["dealname", "amount", "dealstage", "pipeline", "closedate",
   "createdate", "hs_lastmodifieddate", "hubspot_owner_id",
   "description", "dealtype", "hs_priority",
   "num_associated_contacts", "num_associated_companies",
   "hs_is_closed", "hs_is_closed_won",
   "hs_forecast_amount", "hs_forecast_probability"]

/-- The query-parameter construction of `get_deals` (lines 167-185):
`limit` clamped to 100, comma-joined `properties` (defaulted when absent),
lowercased `archived`, and `after` only when the Python value is truthy
(`if after:` — absent for both `None` and the empty string). -/
def dealsParams (limit : ℕ) (after : Option String)
    (properties : Option (List String)) (archived : Bool) :
    List (String × String) :=
  let props := properties.getD DEFAULT_PROPERTIES
  let base := [("limit", toString (min limit 100)),
               ("properties", String.intercalate "," props),
               ("archived", if archived then "true" else "false")]
  match after with
  | none => base
  | some a => if a = "" then base else base ++ [("after", a)]

/-- Embeds `get_deals` as a whole, at the level of the rate-window state: it calls
`_wait_for_rate_limit` first (line 163), unconditionally, and the
subsequent HTTP outcome never touches `self._request_times`.  Returns the
new rate state (list and clock) together with the classified result. -/
def get_deals_full (times : List ℚ) (now : ℚ) (ev : HttpEvent) :
    (List ℚ × ℚ) × Except GetDealsError PageData :=
  (wait_for_rate_limit times now, getDealsResponse ev)

/-- The observable trace of one `get_all_deals` run: the `after` argument
of each `get_deals` call issued, the deal records yielded (in order), the
`(page, deals_so_far)` checkpoint invocations, and the durations of the
`time.sleep` calls in the rate-limit retry path. -/
structure Trace where
  calls : List (Option String)
  yielded : List Record
  checkpoints : List (ℕ × ℕ)
  sleeps : List ℕ
deriving DecidableEq, Repr

/-- The empty trace at the start of a run. -/
def Trace.empty : Trace := ⟨[], [], [], []⟩

/-- How a `get_all_deals` run ends: `done` is the normal `break` at
line 272; `failed` is an uncaught `HubSpotAPIError` (the re-raise at
line 283); `keyError` is the Python `KeyError` that
`paging["next"]["after"]` (line 274) raises when `next` lacks `after`;
`starved` means the supplied event list was exhausted with the loop still
running (the model's stand-in for a longer session). -/
inductive ExtractResult where
  | done (tr : Trace)
  | failed (tr : Trace) (e : GetDealsError)
  | keyError (tr : Trace)
  | starved (tr : Trace)
deriving DecidableEq, Repr

/-- The trace accumulated so far, whatever the ending. -/
def ExtractResult.trace : ExtractResult → Trace
  | .done tr => tr
  | .failed tr _ => tr
  | .keyError tr => tr
  | .starved tr => tr

/-- Whether the run ended with the normal `break`. -/
def ExtractResult.isDone : ExtractResult → Bool
  | .done _ => true
  | _ => false

/-- The `while True` loop of `HubSpotAPIService.get_all_deals`
(lines 241-283), one iteration per consumed `HttpEvent`:
call `get_deals` with the current cursor; on success increment the page
count, yield every raw entry of `results` (incrementing `total_deals`),
fire the checkpoint callback when one is supplied and
`page_count % checkpoint_interval == 0`, then `break` if `paging` is
absent or lacks `"next"`, read `paging["next"]["after"]` otherwise
(a `KeyError` if `next` lacks `"after"`), and continue with that cursor;
on `HubSpotRateLimitError` sleep a fixed 10 seconds and retry with the
same cursor and counters; on any other `HubSpotAPIError` re-raise. -/
def extractLoop (interval : ℕ) (hasCb : Bool) :
    List HttpEvent → Option String → ℕ → ℕ → Trace → ExtractResult
  | [], _, _, _, acc => .starved acc
  | ev :: rest, after, page_count, total_deals, acc =>
    let acc1 : Trace := { acc with calls := acc.calls ++ [after] }
    match getDealsResponse ev with
    | .ok data =>
      let results := data.results
      let page_count2 := page_count + 1
      let total2 := total_deals + results.length
      let acc2 : Trace := { acc1 with yielded := acc1.yielded ++ results }
      let acc3 : Trace :=
        if hasCb && page_count2 % interval == 0 then
          { acc2 with checkpoints := acc2.checkpoints ++ [(page_count2, total2)] }
        else acc2
      match data.paging with
      | none => .done acc3
      | some pg =>
        match pg.next with
        | none => .done acc3
        | some nxt =>
          match nxt.after with
          | none => .keyError acc3
          | some a => extractLoop interval hasCb rest (some a) page_count2 total2 acc3
    | .error (.rateLimit _) =>
      extractLoop interval hasCb rest after page_count total_deals
        { acc1 with sleeps := acc1.sleeps ++ [10] }
    | .error (.authentication m) => .failed acc1 (.authentication m)
    | .error (.api m) => .failed acc1 (.api m)

/-- Embeds `get_all_deals` (lines 222-283): the loop started with `after = None`,
`page_count = 0`, `total_deals = 0` and an empty trace. -/
def get_all_deals (interval : ℕ) (hasCb : Bool) (events : List HttpEvent) :
    ExtractResult :=
  extractLoop interval hasCb events none 0 0 Trace.empty

/-- Embeds `get_rate_limit_status` (lines 285-301): computes the pruned copy
`active_requests` without assigning to `self._request_times`, and reports
the in-window count, quota, window size and remaining budget.  The first
component is the value of `self._request_times` after the call. -/
def get_rate_limit_status (times : List ℚ) (now : ℚ) :
    List ℚ × (ℕ × ℕ × ℚ × ℤ) :=
  let active := prune times now
  (times,
   (active.length, RATE_LIMIT_MAX, RATE_LIMIT_WINDOW,
    (RATE_LIMIT_MAX : ℤ) - active.length))

/-- Modelled from the spec (§4.2 record normalization; this flattening is
implemented nowhere in `api_service.py` — the spec attributes it to the
extraction path): from a raw entry with top-level `id`, nested
`properties`, `createdAt`, `updatedAt`, `archived`, build the flat record
with `id`, every `properties` key at top level, and the renamed
timestamp/archived fields. -/
def flattenRecordSpec (r : Record) : Record :=
  (match r.lookup "id" with | some v => [("id", v)] | none => []) ++
  (match r.lookup "properties" with
   | some (.nested ps) => ps.map (fun kv => (kv.1, Field.str kv.2))
   | _ => []) ++
  (match r.lookup "createdAt" with | some v => [("created_at", v)] | none => []) ++
  (match r.lookup "updatedAt" with | some v => [("updated_at", v)] | none => []) ++
  (match r.lookup "archived" with | some v => [("archived", v)] | none => [])

/-- A well-linked backing dataset: successful pages `inits`, each with its
records and the cursor its `paging.next.after` carries, followed by a final
page `last` with no `paging`. -/
def chainEvents : List (List Record × String) → List Record → List HttpEvent
  | [], last => [.response ⟨200, none, ⟨last, none⟩⟩]
  | (recs, c) :: rest, last =>
      .response ⟨200, none, ⟨recs, some ⟨some ⟨some c⟩⟩⟩⟩ :: chainEvents rest last

/-- The checkpoint schedule the spec describes: walking the successive page
sizes from a starting page number and running total, emit
`(page, total-so-far)` exactly at every page whose number is a multiple of
`interval`. -/
def expectedCheckpoints (interval : ℕ) : ℕ → ℕ → List ℕ → List (ℕ × ℕ)
  | _, _, [] => []
  | p, t, s :: rest =>
      (if (p + 1) % interval == 0 then [(p + 1, t + s)] else []) ++
      expectedCheckpoints interval (p + 1) (t + s) rest

/-- The trace state after one successful page of the loop body: the
`get_deals` call recorded, the raw results yielded, and the checkpoint
fired when a callback is supplied and the new page count is a multiple of
the interval. -/
def pageTrace (interval : ℕ) (hasCb : Bool) (acc : Trace) (after : Option String)
    (page_count total_deals : ℕ) (results : List Record) : Trace :=
  let acc1 : Trace := { acc with calls := acc.calls ++ [after] }
  let acc2 : Trace := { acc1 with yielded := acc1.yielded ++ results }
  if hasCb && (page_count + 1) % interval == 0 then
    { acc2 with checkpoints :=
        acc2.checkpoints ++ [(page_count + 1, total_deals + results.length)] }
  else acc2

/-- Whether a `get_deals` outcome is the `HubSpotAuthenticationError`. -/
def isAuthenticationFailure : Except GetDealsError PageData → Bool :=
  fun res =>
    match res with
    | .error (.authentication _) => true
    | _ => false

/-- A raw deal entry as the repository's own test data shapes it: top-level
`id`, nested `properties`, `createdAt`, `updatedAt`, `archived`. -/
def sampleDeal : Record :=
  [("id", .str "123"),
   ("properties", .nested [("dealname", "Test Deal"), ("amount", "10000")]),
   ("createdAt", .str "2024-01-01T00:00:00Z"),
   ("updatedAt", .str "2024-01-02T00:00:00Z"),
   ("archived", .bool false)]

/-- A backing dataset of a single page with no `paging`. -/
def singlePageEvents : List HttpEvent :=
  [.response ⟨200, none, ⟨[sampleDeal], none⟩⟩]

/-- A 429 response carrying `Retry-After: 5`, followed by a successful
single page on retry. -/
def rateLimitScenario : List HttpEvent :=
  [.response ⟨429, some 5, ⟨[], none⟩⟩,
   .response ⟨200, none, ⟨[sampleDeal], none⟩⟩]

/-- Distinct raw entries for the two-page scenario. -/
def dealOne : Record := [("id", .str "1")]

/-- Second raw entry of page one. -/
def dealTwo : Record := [("id", .str "2")]

/-- First raw entry of page two. -/
def dealThree : Record := [("id", .str "3")]

/-- Second raw entry of page two. -/
def dealFour : Record := [("id", .str "4")]

/-- Two pages linked by the cursor `"cursor123"`: page one carries
`paging.next.after = "cursor123"`, page two has no `paging`. -/
def twoPageEvents : List HttpEvent :=
  [.response ⟨200, none, ⟨[dealOne, dealTwo], some ⟨some ⟨some "cursor123"⟩⟩⟩⟩,
   .response ⟨200, none, ⟨[dealThree, dealFour], none⟩⟩]

/-- A twelve-page backing dataset, one record per page. -/
def twelvePageEvents : List HttpEvent :=
  chainEvents (List.replicate 11 ([dealOne], "cursorNext")) [dealOne]

/-- A page whose `paging.next` object lacks the `after` key. -/
def nextWithoutAfterEvents : List HttpEvent :=
  [.response ⟨200, none, ⟨[sampleDeal], some ⟨some ⟨none⟩⟩⟩⟩]

/-- A lone 403 response. -/
def forbiddenEvents : List HttpEvent :=
  [.response ⟨403, none, ⟨[], none⟩⟩]

lemma prune_length_le (ts : List ℚ) (now : ℚ) :
    (prune ts now).length ≤ ts.length :=
  List.length_filter_le _ _

lemma length_wait_le (ts : List ℚ) (now : ℚ) (h : ts.length ≤ RATE_LIMIT_MAX) :
    (wait_for_rate_limit ts now).1.length ≤ RATE_LIMIT_MAX := by
  have hple : (prune ts now).length ≤ ts.length := prune_length_le ts now
  unfold wait_for_rate_limit
  simp only []
  by_cases hq : RATE_LIMIT_MAX ≤ (prune ts now).length
  · rw [if_pos hq]
    rcases hcons : prune ts now with _ | ⟨o, tl⟩
    · rw [hcons] at hq; simp [RATE_LIMIT_MAX] at hq
    · have ho : now - RATE_LIMIT_WINDOW < o := by
        have hm : o ∈ prune ts now := by
          rw [hcons]; exact List.mem_cons_self _ _
        have := List.of_mem_filter hm
        simpa using this
      simp only [List.headI]
      have hwait : (0 : ℚ) < RATE_LIMIT_WINDOW - (now - o) := by linarith
      rw [if_pos hwait]
      simp only [List.length_append, List.length_cons, List.length_nil]
      have hpo : decide (now + (RATE_LIMIT_WINDOW - (now - o)) -
          RATE_LIMIT_WINDOW < o) = false := by
        apply decide_eq_false
        intro hlt
        have heq : now + (RATE_LIMIT_WINDOW - (now - o)) - RATE_LIMIT_WINDOW = o := by
          ring
        rw [heq] at hlt
        exact lt_irrefl o hlt
      have hdrop : (prune (o :: tl)
          (now + (RATE_LIMIT_WINDOW - (now - o)))).length ≤ tl.length := by
        unfold prune
        simp only [List.filter_cons, hpo, Bool.false_eq_true, if_false]
        exact List.length_filter_le _ _
      have hlen : tl.length + 1 ≤ RATE_LIMIT_MAX := by
        have h2 : (prune ts now).length ≤ RATE_LIMIT_MAX := le_trans hple h
        rw [hcons] at h2
        simpa using h2
      omega
  · rw [if_neg hq]
    simp only [List.length_append, List.length_cons, List.length_nil]
    omega

lemma rateReach_length (ts : List ℚ) (h : RateReach ts) :
    ts.length ≤ RATE_LIMIT_MAX := by
  induction h with
  | init => simp [RATE_LIMIT_MAX]
  | step ts now _ ih => exact length_wait_le ts now ih

lemma extractLoop_chain (n : ℕ) (cb : Bool) (inits : List (List Record × String))
    (last : List Record) (a0 : Option String) (p t : ℕ) (acc : Trace) :
    extractLoop n cb (chainEvents inits last) a0 p t acc =
      .done { calls := acc.calls ++ a0 :: inits.map (fun x => some x.2),
              yielded := acc.yielded ++ (inits.map Prod.fst).flatten ++ last,
              checkpoints := acc.checkpoints ++
                (if cb then expectedCheckpoints n p t
                  ((inits.map Prod.fst).map List.length ++ [last.length]) else []),
              sleeps := acc.sleeps } := by
  induction inits generalizing a0 p t acc with
  | nil =>
    simp only [chainEvents, extractLoop, getDealsResponse]
    norm_num
    cases cb with
    | false => simp [expectedCheckpoints]
    | true =>
      by_cases hmod : (p + 1) % n = 0
      · simp [expectedCheckpoints, hmod]
      · simp [expectedCheckpoints, hmod]
  | cons hd tl ih =>
    obtain ⟨recs, c⟩ := hd
    simp only [chainEvents, extractLoop, getDealsResponse]
    norm_num
    rw [ih]
    cases cb with
    | false => simp
    | true =>
      by_cases hmod : (p + 1) % n = 0
      · simp [expectedCheckpoints, hmod, List.append_assoc]
      · simp [expectedCheckpoints, hmod]

/-- C1 (invariants): for every sequence of admissions performed by
`_wait_for_rate_limit` starting from the empty list, the recorded timestamp
list never contains more than `RATE_LIMIT_MAX` timestamps falling within
any trailing `RATE_LIMIT_WINDOW`-seconds interval `(now - WINDOW, now]`:
each admission prunes entries older than `now - WINDOW`, waits when the
in-window count is at the quota, and appends the current timestamp. -/
theorem rate_window_invariant (ts : List ℚ) (h : RateReach ts) (now : ℚ) :
    (ts.filter (fun t => decide (now - RATE_LIMIT_WINDOW < t ∧ t ≤ now))).length ≤
      RATE_LIMIT_MAX :=
  le_trans (List.length_filter_le _ _) (rateReach_length ts h)

/-- Witness for C1: the state `[5]` is reachable by one admission at clock
5 from the initial empty list, and the invariant holds for it at clock 12. -/
theorem rate_window_invariant_witness :
    RateReach [(5 : ℚ)] ∧
    (([(5 : ℚ)].filter
        (fun t => decide ((12 : ℚ) - RATE_LIMIT_WINDOW < t ∧ t ≤ 12))).length ≤
      RATE_LIMIT_MAX) := by
  have h1 : RateReach [(5 : ℚ)] := by
    have h2 := RateReach.step [] 5 RateReach.init
    have h3 : (wait_for_rate_limit [] (5 : ℚ)).1 = [(5 : ℚ)] := by rfl
    rw [h3] at h2
    exact h2
  exact ⟨h1, rate_window_invariant [(5 : ℚ)] h1 12⟩

/-- C2, counterexample: on a 429 carrying `Retry-After: 5` the loop sleeps
10 seconds, not the server-signaled 5 — `get_deals` parses the signaled
delay into the raised error, but the retry path at line 278 executes the
fixed `time.sleep(10)`. -/
theorem rateLimit_sleep_fixed_counterexample :
    getDealsResponse (.response ⟨429, some 5, ⟨[], none⟩⟩) =
      .error (.rateLimit 5) ∧
    (get_all_deals 5 false rateLimitScenario).trace.sleeps = [10] ∧
    (10 : ℕ) ≠ 5 := by
  exact ⟨rfl, rfl, by decide⟩

/-- C2 as amended: on a rate-limit (HTTP 429) response during extraction,
the loop suspends for a fixed 10 seconds (not the server-signaled delay,
with which it coincides only when the signal is absent or equal to 10) and
retries the same page with the same cursor: the cursor is neither advanced
nor rewound, nothing is yielded for the failed attempt, and exactly one
record set (from the successful retry) is yielded for that page. -/
theorem rateLimit_retry_same_cursor_fixed_sleep :
    (∀ (ra : Option ℕ) (b : PageData) (rest : List HttpEvent)
       (a0 : Option String) (p t : ℕ) (acc : Trace) (cb : Bool) (n : ℕ),
      extractLoop n cb (.response ⟨429, ra, b⟩ :: rest) a0 p t acc =
        extractLoop n cb rest a0 p t
          { acc with calls := acc.calls ++ [a0],
                     sleeps := acc.sleeps ++ [10] }) ∧
    get_all_deals 5 false rateLimitScenario =
      .done ⟨[none, none], [sampleDeal], [], [10]⟩ :=
  ⟨fun _ _ _ _ _ _ _ _ _ => rfl, rfl⟩

/-- C3, counterexample: the record yielded for a raw entry with a nested
`properties` sub-map is the raw entry itself — its `properties` keys are
not merged at top level (`dealname` is absent there, while the flattening
the spec describes would surface it), so the yielded record differs from
the flattened one. -/
theorem flattening_counterexample :
    (get_all_deals 5 false singlePageEvents).trace.yielded = [sampleDeal] ∧
    sampleDeal.lookup "properties" =
      some (.nested [("dealname", "Test Deal"), ("amount", "10000")]) ∧
    sampleDeal.lookup "dealname" = none ∧
    (flattenRecordSpec sampleDeal).lookup "dealname" = some (.str "Test Deal") ∧
    sampleDeal ≠ flattenRecordSpec sampleDeal := by
  decide

/-- C3 as amended: each record yielded by the extraction sequence is the
raw page entry unchanged — the nested `properties` mapping is retained and
no flattening or field renaming is performed; the yielded sequence is
exactly the concatenation of the raw `results` arrays. -/
theorem extract_yields_raw_records (n : ℕ) (cb : Bool)
    (inits : List (List Record × String)) (last : List Record) :
    (get_all_deals n cb (chainEvents inits last)).trace.yielded =
      (inits.map Prod.fst).flatten ++ last := by
  unfold get_all_deals
  rw [extractLoop_chain]
  simp [ExtractResult.trace, Trace.empty]

/-- C4, counterexample: a page whose `paging.next` object lacks the
`after` key does not end the sequence normally — line 274
(`paging["next"]["after"]`) raises a `KeyError` instead of breaking. -/
theorem next_missing_after_counterexample :
    get_all_deals 5 false nextWithoutAfterEvents =
      .keyError ⟨[none], [sampleDeal], [], []⟩ ∧
    (get_all_deals 5 false nextWithoutAfterEvents).isDone = false := by
  decide

/-- C4 as amended: `get_all_deals` terminates normally exactly when a
fetched page's `paging` object is absent or lacks `next`, in which case
the sequence ends after yielding that page's records; when `next` is
present but lacks `after`, the loop raises a `KeyError` (ending
abnormally) after yielding that page's records; when `next.after` is
present, the loop continues with that cursor. -/
theorem pagination_termination_cases (n : ℕ) (cb : Bool) (recs : List Record)
    (ra : Option ℕ) (rest : List HttpEvent) (a0 : Option String) (p t : ℕ)
    (acc : Trace) :
    (extractLoop n cb (.response ⟨200, ra, ⟨recs, none⟩⟩ :: rest) a0 p t acc =
      .done (pageTrace n cb acc a0 p t recs)) ∧
    (extractLoop n cb (.response ⟨200, ra, ⟨recs, some ⟨none⟩⟩⟩ :: rest) a0 p t acc =
      .done (pageTrace n cb acc a0 p t recs)) ∧
    (extractLoop n cb (.response ⟨200, ra, ⟨recs, some ⟨some ⟨none⟩⟩⟩⟩ :: rest)
        a0 p t acc =
      .keyError (pageTrace n cb acc a0 p t recs)) ∧
    (∀ c : String,
      extractLoop n cb (.response ⟨200, ra, ⟨recs, some ⟨some ⟨some c⟩⟩⟩⟩ :: rest)
          a0 p t acc =
        extractLoop n cb rest (some c) (p + 1) (t + recs.length)
          (pageTrace n cb acc a0 p t recs)) :=
  ⟨rfl, rfl, rfl, fun _ => rfl⟩

/-- C5 (functional correctness): for a backing dataset of two pages linked
by the cursor `"cursor123"`, `get_all_deals` yields all page-1 records
followed by all page-2 records in API order, using exactly two page
fetches, where the first fetch passes no `after` and the second fetch's
`after` equals `"cursor123"`. -/
theorem two_page_cursor_chain :
    get_all_deals 5 false twoPageEvents =
      .done ⟨[none, some "cursor123"],
             [dealOne, dealTwo, dealThree, dealFour], [], []⟩ ∧
    (get_all_deals 5 false twoPageEvents).trace.calls.length = 2 := by
  decide

/-- C6, counterexample: an HTTP 403 response does not raise
`HubSpotAuthenticationError` from `get_deals` — it falls through to
`raise_for_status` and is converted to the generic `HubSpotAPIError` —
so `get_all_deals` propagates the generic error, not the authentication
one. -/
theorem forbidden_status_counterexample :
    getDealsResponse (.response ⟨403, none, ⟨[], none⟩⟩) =
      .error (.api "HTTP error") ∧
    isAuthenticationFailure (getDealsResponse (.response ⟨403, none, ⟨[], none⟩⟩)) =
      false ∧
    get_all_deals 5 false forbiddenEvents =
      .failed ⟨[none], [], [], []⟩ (.api "HTTP error") :=
  ⟨rfl, rfl, rfl⟩

/-- C6 as amended: HTTP 401 makes `get_deals` raise
`HubSpotAuthenticationError` and HTTP 403 makes it raise the generic
`HubSpotAPIError` (via `raise_for_status`); in both cases `get_all_deals`
propagates the error immediately to the consumer without any retry
(the remaining responses are never consumed), halting the sequence. -/
theorem auth_errors_fatal_not_retried (ra : Option ℕ) (b : PageData)
    (rest : List HttpEvent) (a0 : Option String) (p t : ℕ) (acc : Trace)
    (cb : Bool) (n : ℕ) :
    getDealsResponse (.response ⟨401, ra, b⟩) =
      .error (.authentication "Invalid or expired API key") ∧
    extractLoop n cb (.response ⟨401, ra, b⟩ :: rest) a0 p t acc =
      .failed { acc with calls := acc.calls ++ [a0] }
        (.authentication "Invalid or expired API key") ∧
    getDealsResponse (.response ⟨403, ra, b⟩) = .error (.api "HTTP error") ∧
    extractLoop n cb (.response ⟨403, ra, b⟩ :: rest) a0 p t acc =
      .failed { acc with calls := acc.calls ++ [a0] } (.api "HTTP error") :=
  ⟨rfl, rfl, rfl, rfl⟩

/-- C7 (functional correctness): with a checkpoint callback supplied,
`get_all_deals` invokes it exactly after every `interval` successfully
completed pages, with the current page number and cumulative record count
(the schedule `expectedCheckpoints`); in particular, for interval 5 and a
12-page extraction the callback fires exactly twice, at pages 5 and 10,
with monotonically increasing record totals. -/
theorem checkpoint_cadence :
    (∀ (n : ℕ) (inits : List (List Record × String)) (last : List Record),
      (get_all_deals n true (chainEvents inits last)).trace.checkpoints =
        expectedCheckpoints n 0 0
          ((inits.map Prod.fst).map List.length ++ [last.length])) ∧
    (get_all_deals 5 true twelvePageEvents).trace.checkpoints =
      [(5, 5), (10, 10)] := by
  constructor
  · intro n inits last
    unfold get_all_deals
    rw [extractLoop_chain]
    simp [ExtractResult.trace, Trace.empty]
  · decide

/-- C8 (functional correctness): `get_deals` treats an empty-string cursor
the same as an absent one — for `after = ""` and `after = None` the
outgoing request parameters are identical and omit the `after` key
entirely, so an empty cursor silently refetches the first page. -/
theorem empty_cursor_omits_after (limit : ℕ) (props : Option (List String))
    (archived : Bool) :
    dealsParams limit (some "") props archived =
      dealsParams limit none props archived ∧
    (dealsParams limit (some "") props archived).lookup "after" = none ∧
    (dealsParams limit none props archived).lookup "after" = none := by
  refine ⟨rfl, ?_, ?_⟩ <;> simp [dealsParams, List.lookup]

/-- C9 (frame effect): `get_rate_limit_status` never mutates the
rate-window state — for every timestamp list the stored list is returned
exactly unchanged, while the report carries the in-window count, quota,
window size, and remaining budget computed from a pruned copy. -/
theorem rate_status_read_only (ts : List ℚ) (now : ℚ) :
    (get_rate_limit_status ts now).1 = ts ∧
    (get_rate_limit_status ts now).2 =
      ((prune ts now).length, RATE_LIMIT_MAX, RATE_LIMIT_WINDOW,
       (RATE_LIMIT_MAX : ℤ) - (prune ts now).length) :=
  ⟨rfl, rfl⟩

/-- C10 (invariants): every `get_deals` call consumes quota regardless of
outcome — the rate-window update is `_wait_for_rate_limit`'s, independent
of the HTTP event (429, 401, timeout, transport error or success), and it
appends exactly one new timestamp (the admission time, at the end) to a
kept sublist of the previous timestamps. -/
theorem get_deals_always_consumes_quota (ts : List ℚ) (now : ℚ)
    (ev : HttpEvent) :
    (get_deals_full ts now ev).1 = wait_for_rate_limit ts now ∧
    ∃ kept : List ℚ,
      (wait_for_rate_limit ts now).1 = kept ++ [(wait_for_rate_limit ts now).2] ∧
      ∀ x ∈ kept, x ∈ ts := by
  refine ⟨rfl, ?_⟩
  unfold wait_for_rate_limit
  simp only []
  by_cases hq : RATE_LIMIT_MAX ≤ (prune ts now).length
  · rw [if_pos hq]
    by_cases hw : 0 < RATE_LIMIT_WINDOW - (now - (prune ts now).headI)
    · rw [if_pos hw]
      refine ⟨prune (prune ts now) _, rfl, ?_⟩
      intro x hx
      exact List.mem_of_mem_filter (List.mem_of_mem_filter hx)
    · rw [if_neg hw]
      refine ⟨prune ts now, rfl, ?_⟩
      intro x hx
      exact List.mem_of_mem_filter hx
  · rw [if_neg hq]
    refine ⟨prune ts now, rfl, ?_⟩
    intro x hx
    exact List.mem_of_mem_filter hx

end HubSpotAPI
